import Mathlib

/-!
Shallow embedding of the `EntewardProject` Solidity contract
(`contracts/EntewardProject.sol`, Solidity >=0.8.0 <0.9.0, OpenZeppelin v5
`ERC721` + `Ownable`).

Modelling conventions:
* addresses are `Nat`, with `0` standing for `address(0)`;
* `uint256` values are `Nat`; Solidity 0.8 checked arithmetic is made
  explicit: an addition/multiplication whose true value reaches `2 ^ 256`
  yields `Err.ArithmeticPanic` (Solidity `Panic(0x11)`), and a division by
  zero yields `Err.DivisionByZeroPanic` (Solidity `Panic(0x12)`);
* `bytes(s).length == 0` holds exactly when the string is empty, so emptiness
  tests are written `s = ""`;
* contract storage is the structure `EntewardProject`: the `Ownable` owner,
  the `_nextTokenId` counter, the ERC721 `_owners` mapping and the `projects`
  mapping (a Solidity mapping reads as the zero value on absent keys, hence
  total functions);
* event emission carries no state and is not modelled; balances and the
  ERC721 approval mappings are not modelled either: `approve` and
  `setApprovalForAll` are overridden to revert unconditionally, so the
  approval mappings can never leave their zero state and no claim observes
  balances.
-/

/-- `2 ^ 256`, the modulus of Solidity `uint256` arithmetic. -/
def UINT256_MOD : Nat := 2 ^ 256

/-- `enum ProjectStatus { Upcoming, Ongoing, Cancelled, Completed }`. -/
inductive ProjectStatus where
  | Upcoming
  | Ongoing
  | Cancelled
  | Completed
deriving DecidableEq, Repr, BEq

/-- `struct Project { ProjectStatus status; string proposalURI; string reportURI; }`. -/
structure Project where
  status : ProjectStatus
  proposalURI : String
  reportURI : String
deriving DecidableEq, Repr

/-- The zero value of `struct Project`: the value a Solidity mapping returns
for a key that was never written. -/
def Project.zero : Project :=
  { status := .Upcoming, proposalURI := "", reportURI := "" }

/-- Contract storage of `EntewardProject`. -/
structure EntewardProject where
  /-- The `Ownable` owner (the administrator). -/
  contractOwner : Nat
  /-- `uint256 private _nextTokenId`. -/
  nextTokenId : Nat
  /-- The ERC721 `_owners` mapping; `0` means the token does not exist. -/
  owners : Nat → Nat
  /-- `mapping(uint256 => Project) public projects`. -/
  projects : Nat → Project

/-- Revert reasons reachable in the embedded fragment: the contract's custom
errors, the OpenZeppelin errors hit on the modelled paths, and the Solidity
arithmetic panics. -/
inductive Err where
  | ProjectNotFound (tokenId : Nat)
  | InvalidStatusTransition (current requested : ProjectStatus)
  | ReportURIRequired
  | NoProjectsExist
  | PageOutOfBounds (page maxPages : Nat)
  | EmptyProposalURI
  | TransfersNotAllowed
  | OwnableUnauthorizedAccount (account : Nat)
  | ERC721InvalidReceiver
  | ArithmeticPanic
  | DivisionByZeroPanic
deriving DecidableEq, Repr

deriving instance DecidableEq for Except

/-- `true` on the `ok` branch of an `Except`, `false` on `error`: the call
succeeded. -/
def isOk {α : Type} (e : Except Err α) : Bool :=
  match e with
  | .ok _ => true
  | .error _ => false

/-- `_isValidStatusTransition`, translated clause by clause from the source. -/
def _isValidStatusTransition (currentStatus newStatus : ProjectStatus) : Bool :=
  if currentStatus == .Cancelled || currentStatus == .Completed then false
  else if currentStatus == .Upcoming then
    newStatus == .Ongoing || newStatus == .Cancelled
  else if currentStatus == .Ongoing then
    newStatus == .Completed || newStatus == .Cancelled
  else false

/-- `safeMint(string calldata proposalURI) external onlyOwner returns (uint256)`.

Check order follows the execution of the source: the `onlyOwner` modifier,
the empty-`proposalURI` check, the checked post-increment `_nextTokenId++`,
then `_safeMint(owner(), tokenId)` — OpenZeppelin `_mint` rejects a zero
receiver, then the contract's `_update` override runs (its
`TransfersNotAllowed` guard sees `from = _owners[tokenId]`, `to = owner()`),
then `_owners[tokenId] := to` — and finally the `projects[tokenId]` store.
The `_checkOnERC721Received` callback is skipped: addresses are modelled as
externally owned accounts, which have no code. -/
def safeMint (s : EntewardProject) (caller : Nat) (proposalURI : String) :
    Except Err (EntewardProject × Nat) :=
  if caller ≠ s.contractOwner then .error (.OwnableUnauthorizedAccount caller)
  else if proposalURI = "" then .error .EmptyProposalURI
  else if UINT256_MOD ≤ s.nextTokenId + 1 then .error .ArithmeticPanic
  else if s.contractOwner = 0 then .error .ERC721InvalidReceiver
  else if s.owners s.nextTokenId ≠ 0 then .error .TransfersNotAllowed
  else
    .ok ({ s with
            nextTokenId := s.nextTokenId + 1,
            owners := Function.update s.owners s.nextTokenId s.contractOwner,
            projects := Function.update s.projects s.nextTokenId
              ({ status := .Upcoming, proposalURI := proposalURI, reportURI := "" }) },
         s.nextTokenId)

/-- `updateStatus(uint256 tokenId, ProjectStatus newStatus, string calldata reportURI)
external onlyOwner`.

The source sets `project.status = newStatus` and, only when
`newStatus == Completed`, also `project.reportURI = reportURI`; the two
writes are collapsed into one record update per branch. -/
def updateStatus (s : EntewardProject) (caller tokenId : Nat)
    (newStatus : ProjectStatus) (reportURI : String) : Except Err EntewardProject :=
  if caller ≠ s.contractOwner then .error (.OwnableUnauthorizedAccount caller)
  else if s.owners tokenId = 0 then .error (.ProjectNotFound tokenId)
  else if _isValidStatusTransition (s.projects tokenId).status newStatus = false then
    .error (.InvalidStatusTransition (s.projects tokenId).status newStatus)
  else if newStatus = .Completed ∧ reportURI = "" then .error .ReportURIRequired
  else if newStatus = .Completed then
    .ok ({ s with
            projects := Function.update s.projects tokenId
              ({ s.projects tokenId with status := newStatus, reportURI := reportURI }) })
  else
    .ok ({ s with
            projects := Function.update s.projects tokenId
              ({ s.projects tokenId with status := newStatus }) })

/-- `getProjects(uint256 projectsPerPage, uint256 page) external view`.

`page * projectsPerPage` and `startIndex + projectsPerPage` are checked
uint256 operations; `(totalProjects - 1) / projectsPerPage` panics in
Solidity when the divisor is zero, hence the explicit branch. The loop body's
`totalProjects - 1 - startIndex - i` is inside `unchecked`, but on this branch
`startIndex < totalProjects` and `i < endIndex - startIndex`, so the uint256
value agrees with truncated `Nat` subtraction. The four result arrays are
filled index-aligned from the descending token ids. -/
def getProjects (s : EntewardProject) (projectsPerPage page : Nat) :
    Except Err (List Nat × List ProjectStatus × List String × List String) :=
  if s.nextTokenId = 0 then .error .NoProjectsExist
  else if UINT256_MOD ≤ page * projectsPerPage then .error .ArithmeticPanic
  else if s.nextTokenId ≤ page * projectsPerPage then
    if projectsPerPage = 0 then .error .DivisionByZeroPanic
    else .error (.PageOutOfBounds page ((s.nextTokenId - 1) / projectsPerPage))
  else if UINT256_MOD ≤ page * projectsPerPage + projectsPerPage then .error .ArithmeticPanic
  else
    let startIndex := page * projectsPerPage
    let endIndex := min (startIndex + projectsPerPage) s.nextTokenId
    let tokenIds := (List.range (endIndex - startIndex)).map
      (fun i => s.nextTokenId - 1 - startIndex - i)
    .ok (tokenIds,
         tokenIds.map (fun t => (s.projects t).status),
         tokenIds.map (fun t => (s.projects t).proposalURI),
         tokenIds.map (fun t => (s.projects t).reportURI))

/-- `getProject(uint256 tokenId) external view`. -/
def getProject (s : EntewardProject) (tokenId : Nat) :
    Except Err (ProjectStatus × String × String) :=
  if s.owners tokenId = 0 then .error (.ProjectNotFound tokenId)
  else .ok ((s.projects tokenId).status, (s.projects tokenId).proposalURI,
            (s.projects tokenId).reportURI)

/-- `getTotalProjects() external view returns (uint256)`. -/
def getTotalProjects (s : EntewardProject) : Nat :=
  s.nextTokenId

/-- The contract's `_update(address to, uint256 tokenId, address auth)` override:
minting (`from == 0`) passes through to `super._update`, which writes
`_owners[tokenId] := to` and returns the previous owner; any call with an
existing token and a nonzero receiver reverts. `super._update`'s
authorization check only runs on paths with `auth != 0`, which no entry
point of this contract reaches (transfers revert first and minting passes
`auth = 0`), so it is not modelled. -/
def _update (s : EntewardProject) (toAddr tokenId _auth : Nat) :
    Except Err (EntewardProject × Nat) :=
  if s.owners tokenId ≠ 0 ∧ toAddr ≠ 0 then .error .TransfersNotAllowed
  else .ok ({ s with owners := Function.update s.owners tokenId toAddr }, s.owners tokenId)

/-- `approve(address, uint256) public pure override`: reverts unconditionally. -/
def approve (_to _tokenId : Nat) : Except Err Unit :=
  .error .TransfersNotAllowed

/-- `setApprovalForAll(address, bool) public pure override`: reverts
unconditionally. -/
def setApprovalForAll (_operator : Nat) (_approved : Bool) : Except Err Unit :=
  .error .TransfersNotAllowed

/-- Storage right after `constructor(address initialOwner)`: zero counter,
empty mappings. (The `Ownable` constructor rejects `initialOwner == 0`; the
model keeps the argument unconstrained because `safeMint` independently
rejects minting to the zero address.) -/
def initState (initialOwner : Nat) : EntewardProject :=
  { contractOwner := initialOwner,
    nextTokenId := 0,
    owners := fun _ => 0,
    projects := fun _ => Project.zero }

/-- A mutating call to the contract: the two `onlyOwner` entry points. -/
inductive Op where
  | create (caller : Nat) (proposalURI : String)
  | update (caller : Nat) (tokenId : Nat) (newStatus : ProjectStatus) (reportURI : String)

/-- Execute one call against the storage; a revert leaves storage unchanged. -/
def applyOp (s : EntewardProject) (op : Op) : EntewardProject :=
  match op with
  | .create caller uri =>
    match safeMint s caller uri with
    | .ok (s', _) => s'
    | .error _ => s
  | .update caller tokenId newStatus reportURI =>
    match updateStatus s caller tokenId newStatus reportURI with
    | .ok s' => s'
    | .error _ => s

/-- Execute a sequence of calls. -/
def run (s : EntewardProject) : List Op → EntewardProject
  | [] => s
  | op :: ops => run (applyOp s op) ops

/-- The token ids returned by the successful `create` calls of a trace, in
call order. -/
def createdIds (s : EntewardProject) : List Op → List Nat
  | [] => []
  | .create caller uri :: ops =>
    match safeMint s caller uri with
    | .ok (s', i) => i :: createdIds s' ops
    | .error _ => createdIds s ops
  | .update caller tokenId newStatus reportURI :: ops =>
    createdIds (applyOp s (.update caller tokenId newStatus reportURI)) ops

/-- The number of successful `create` calls of a trace. -/
def succCreates (s : EntewardProject) : List Op → Nat
  | [] => 0
  | .create caller uri :: ops =>
    match safeMint s caller uri with
    | .ok (s', _) => succCreates s' ops + 1
    | .error _ => succCreates s ops
  | .update caller tokenId newStatus reportURI :: ops =>
    succCreates (applyOp s (.update caller tokenId newStatus reportURI)) ops

/-! ### Concrete states used by witnesses and counterexamples -/

/-- One record created: project 0 exists with status `Upcoming`. -/
def stateOne : EntewardProject :=
  run (initState 1) [.create 1 "p"]

/-- One record created and moved to `Ongoing`. -/
def stateOngoing : EntewardProject :=
  run (initState 1) [.create 1 "p", .update 1 0 .Ongoing ""]

/-- Seven records created (ids 0–6), all `Upcoming`. -/
def stateSeven : EntewardProject :=
  run (initState 1)
    [.create 1 "p0", .create 1 "p1", .create 1 "p2", .create 1 "p3",
     .create 1 "p4", .create 1 "p5", .create 1 "p6"]

/-- A storage state whose identifier counter holds the largest uint256 value,
as reached after `2 ^ 256 - 1` successful creations (the `owners` and
`projects` mappings are irrelevant to the calls made on it). -/
def stateSaturated : EntewardProject :=
  { contractOwner := 1,
    nextTokenId := UINT256_MOD - 1,
    owners := fun _ => 0,
    projects := fun _ => Project.zero }

/-! ### Basic lemmas about the operations -/

lemma isOk_iff {α : Type} (e : Except Err α) : isOk e = true ↔ ∃ x, e = .ok x := by
  cases e <;> simp [isOk]

lemma safeMint_success {s : EntewardProject} {caller : Nat} {proposalURI : String}
    (hc : caller = s.contractOwner) (hne : proposalURI ≠ "")
    (hcap : s.nextTokenId + 1 < UINT256_MOD) (ho : s.contractOwner ≠ 0)
    (hfresh : s.owners s.nextTokenId = 0) :
    safeMint s caller proposalURI =
      .ok ({ s with
              nextTokenId := s.nextTokenId + 1,
              owners := Function.update s.owners s.nextTokenId s.contractOwner,
              projects := Function.update s.projects s.nextTokenId
                ({ status := .Upcoming, proposalURI := proposalURI, reportURI := "" }) },
           s.nextTokenId) := by
  unfold safeMint
  rw [if_neg (by simp [hc]), if_neg hne, if_neg (Nat.not_le.mpr hcap), if_neg ho,
    if_neg (by simp [hfresh])]

lemma safeMint_empty {s : EntewardProject} {caller : Nat}
    (hc : caller = s.contractOwner) :
    safeMint s caller "" = .error .EmptyProposalURI := by
  unfold safeMint
  rw [if_neg (by simp [hc]), if_pos rfl]

lemma safeMint_ok_inv {s s' : EntewardProject} {caller i : Nat} {proposalURI : String}
    (h : safeMint s caller proposalURI = .ok (s', i)) :
    caller = s.contractOwner ∧ proposalURI ≠ "" ∧ s.nextTokenId + 1 < UINT256_MOD ∧
    s.contractOwner ≠ 0 ∧ s.owners s.nextTokenId = 0 ∧ i = s.nextTokenId ∧
    s' = { s with
            nextTokenId := s.nextTokenId + 1,
            owners := Function.update s.owners s.nextTokenId s.contractOwner,
            projects := Function.update s.projects s.nextTokenId
              ({ status := .Upcoming, proposalURI := proposalURI, reportURI := "" }) } := by
  unfold safeMint at h
  split_ifs at h with h1 h2 h3 h4 h5 <;> try exact Except.noConfusion h
  have hpair := Except.ok.inj h
  refine ⟨not_not.mp h1, h2, Nat.not_le.mp h3, h4, not_not.mp h5, ?_, ?_⟩
  · exact (congrArg Prod.snd hpair).symm
  · exact (congrArg Prod.fst hpair).symm

lemma updateStatus_invalid {s : EntewardProject} {caller tokenId : Nat}
    {newStatus : ProjectStatus} {reportURI : String}
    (hc : caller = s.contractOwner) (hex : s.owners tokenId ≠ 0)
    (hbad : _isValidStatusTransition (s.projects tokenId).status newStatus = false) :
    updateStatus s caller tokenId newStatus reportURI =
      .error (.InvalidStatusTransition (s.projects tokenId).status newStatus) := by
  unfold updateStatus
  rw [if_neg (by simp [hc]), if_neg hex, if_pos hbad]

lemma updateStatus_reportRequired {s : EntewardProject} {caller tokenId : Nat}
    (hc : caller = s.contractOwner) (hex : s.owners tokenId ≠ 0)
    (hvalid : _isValidStatusTransition (s.projects tokenId).status .Completed = true) :
    updateStatus s caller tokenId .Completed "" = .error .ReportURIRequired := by
  unfold updateStatus
  rw [if_neg (by simp [hc]), if_neg hex, if_neg (by simp [hvalid]), if_pos ⟨rfl, rfl⟩]

lemma updateStatus_completed {s : EntewardProject} {caller tokenId : Nat} {reportURI : String}
    (hc : caller = s.contractOwner) (hex : s.owners tokenId ≠ 0)
    (hvalid : _isValidStatusTransition (s.projects tokenId).status .Completed = true)
    (hr : reportURI ≠ "") :
    updateStatus s caller tokenId .Completed reportURI =
      .ok ({ s with
              projects := Function.update s.projects tokenId
                ({ s.projects tokenId with status := .Completed, reportURI := reportURI }) }) := by
  unfold updateStatus
  rw [if_neg (by simp [hc]), if_neg hex, if_neg (by simp [hvalid]),
    if_neg (by simp [hr]), if_pos rfl]

lemma updateStatus_nonCompleted {s : EntewardProject} {caller tokenId : Nat}
    {newStatus : ProjectStatus} {reportURI : String}
    (hc : caller = s.contractOwner) (hex : s.owners tokenId ≠ 0)
    (hvalid : _isValidStatusTransition (s.projects tokenId).status newStatus = true)
    (hnc : newStatus ≠ .Completed) :
    updateStatus s caller tokenId newStatus reportURI =
      .ok ({ s with
              projects := Function.update s.projects tokenId
                ({ s.projects tokenId with status := newStatus }) }) := by
  unfold updateStatus
  rw [if_neg (by simp [hc]), if_neg hex, if_neg (by simp [hvalid]),
    if_neg (by simp [hnc]), if_neg hnc]

lemma updateStatus_ok_inv {s s' : EntewardProject} {caller tokenId : Nat}
    {newStatus : ProjectStatus} {reportURI : String}
    (h : updateStatus s caller tokenId newStatus reportURI = .ok s') :
    caller = s.contractOwner ∧ s.owners tokenId ≠ 0 ∧
    _isValidStatusTransition (s.projects tokenId).status newStatus = true ∧
    ¬(newStatus = .Completed ∧ reportURI = "") ∧
    s' = { s with
            projects := Function.update s.projects tokenId
              (if newStatus = .Completed
               then { s.projects tokenId with status := newStatus, reportURI := reportURI }
               else { s.projects tokenId with status := newStatus }) } := by
  unfold updateStatus at h
  split_ifs at h with h1 h2 h3 h4 h5 <;> try exact Except.noConfusion h
  · refine ⟨not_not.mp h1, h2, by simpa using h3, h4, ?_⟩
    rw [if_pos h5]
    exact (Except.ok.inj h).symm
  · refine ⟨not_not.mp h1, h2, by simpa using h3, h4, ?_⟩
    rw [if_neg h5]
    exact (Except.ok.inj h).symm

/-! ### Lemmas about traces of mutating calls -/

lemma run_append (s : EntewardProject) (ops₁ ops₂ : List Op) :
    run s (ops₁ ++ ops₂) = run (run s ops₁) ops₂ := by
  induction ops₁ generalizing s with
  | nil => rfl
  | cons op ops ih => simp [run, ih]

lemma applyOp_contractOwner (s : EntewardProject) (op : Op) :
    (applyOp s op).contractOwner = s.contractOwner := by
  cases op with
  | create caller uri =>
    cases h : safeMint s caller uri with
    | ok p =>
      obtain ⟨s', i⟩ := p
      obtain ⟨-, -, -, -, -, -, rfl⟩ := safeMint_ok_inv h
      simp [applyOp, h]
    | error e => simp [applyOp, h]
  | update caller tokenId newStatus reportURI =>
    cases h : updateStatus s caller tokenId newStatus reportURI with
    | ok s' =>
      obtain ⟨-, -, -, -, rfl⟩ := updateStatus_ok_inv h
      simp [applyOp, h]
    | error e => simp [applyOp, h]

lemma run_contractOwner (s : EntewardProject) (ops : List Op) :
    (run s ops).contractOwner = s.contractOwner := by
  induction ops generalizing s with
  | nil => rfl
  | cons op ops ih => rw [run, ih, applyOp_contractOwner]

lemma applyOp_create_ok_state {s s' : EntewardProject} {caller i : Nat} {uri : String}
    (h : safeMint s caller uri = .ok (s', i)) : applyOp s (.create caller uri) = s' := by
  simp [applyOp, h]

lemma applyOp_create_err {s : EntewardProject} {caller : Nat} {uri : String} {e : Err}
    (h : safeMint s caller uri = .error e) : applyOp s (.create caller uri) = s := by
  simp [applyOp, h]

lemma applyOp_update_ok_state {s s' : EntewardProject} {caller tokenId : Nat}
    {newStatus : ProjectStatus} {reportURI : String}
    (h : updateStatus s caller tokenId newStatus reportURI = .ok s') :
    applyOp s (.update caller tokenId newStatus reportURI) = s' := by
  simp [applyOp, h]

lemma applyOp_update_err {s : EntewardProject} {caller tokenId : Nat}
    {newStatus : ProjectStatus} {reportURI : String} {e : Err}
    (h : updateStatus s caller tokenId newStatus reportURI = .error e) :
    applyOp s (.update caller tokenId newStatus reportURI) = s := by
  simp [applyOp, h]

lemma applyOp_update_nextTokenId (s : EntewardProject) (caller tokenId : Nat)
    (newStatus : ProjectStatus) (reportURI : String) :
    (applyOp s (.update caller tokenId newStatus reportURI)).nextTokenId = s.nextTokenId := by
  cases h : updateStatus s caller tokenId newStatus reportURI with
  | ok s' =>
    obtain ⟨-, -, -, -, hs'⟩ := updateStatus_ok_inv h
    rw [applyOp_update_ok_state h, hs']
  | error e => rw [applyOp_update_err h]

lemma run_cons (s : EntewardProject) (op : Op) (ops : List Op) :
    run s (op :: ops) = run (applyOp s op) ops := rfl

lemma succCreates_cons_update (s : EntewardProject) (caller tokenId : Nat)
    (newStatus : ProjectStatus) (reportURI : String) (ops : List Op) :
    succCreates s (.update caller tokenId newStatus reportURI :: ops) =
      succCreates (applyOp s (.update caller tokenId newStatus reportURI)) ops := rfl

lemma createdIds_cons_update (s : EntewardProject) (caller tokenId : Nat)
    (newStatus : ProjectStatus) (reportURI : String) (ops : List Op) :
    createdIds s (.update caller tokenId newStatus reportURI :: ops) =
      createdIds (applyOp s (.update caller tokenId newStatus reportURI)) ops := rfl

lemma run_nextTokenId (s : EntewardProject) (ops : List Op) :
    (run s ops).nextTokenId = s.nextTokenId + succCreates s ops := by
  induction ops generalizing s with
  | nil => rfl
  | cons op ops ih =>
    cases op with
    | create caller uri =>
      cases h : safeMint s caller uri with
      | ok p =>
        obtain ⟨s', i⟩ := p
        have hNext : s'.nextTokenId = s.nextTokenId + 1 := by
          rw [(safeMint_ok_inv h).2.2.2.2.2.2]
        rw [run_cons, applyOp_create_ok_state h]
        simp only [succCreates, h]
        rw [ih, hNext]
        omega
      | error e =>
        rw [run_cons, applyOp_create_err h]
        simp only [succCreates, h]
        exact ih s
    | update caller tokenId newStatus reportURI =>
      rw [run_cons, succCreates_cons_update, ih, applyOp_update_nextTokenId]

lemma createdIds_eq_range' (s : EntewardProject) (ops : List Op) :
    createdIds s ops = List.range' s.nextTokenId (succCreates s ops) := by
  induction ops generalizing s with
  | nil => rfl
  | cons op ops ih =>
    cases op with
    | create caller uri =>
      cases h : safeMint s caller uri with
      | ok p =>
        obtain ⟨s', i⟩ := p
        obtain ⟨-, -, -, -, -, hi, hs'⟩ := safeMint_ok_inv h
        simp only [createdIds, succCreates, h]
        rw [ih, hs', hi, List.range'_succ]
      | error e =>
        simp only [createdIds, succCreates, h]
        exact ih s
    | update caller tokenId newStatus reportURI =>
      rw [createdIds_cons_update, ih, applyOp_update_nextTokenId,
        succCreates_cons_update]

/-! ### The reachable-state invariant -/

/-- Facts that hold of every storage state the contract can reach: tokens at
or above the counter are unminted, and an existing project's `reportURI` is
non-empty exactly when its status is `Completed`. -/
def StoreInv (s : EntewardProject) : Prop :=
  (∀ t, s.nextTokenId ≤ t → s.owners t = 0) ∧
  (∀ t, s.owners t ≠ 0 →
    ((s.projects t).reportURI ≠ "" ↔ (s.projects t).status = .Completed))

lemma storeInv_init (o : Nat) : StoreInv (initState o) := by
  constructor
  · intro t _
    rfl
  · intro t ht
    exact absurd rfl ht

lemma storeInv_applyOp {s : EntewardProject} (op : Op) (hInv : StoreInv s) :
    StoreInv (applyOp s op) := by
  obtain ⟨hUnminted, hReport⟩ := hInv
  cases op with
  | create caller uri =>
    cases h : safeMint s caller uri with
    | ok p =>
      obtain ⟨s', i⟩ := p
      obtain ⟨-, -, -, -, -, -, hs'⟩ := safeMint_ok_inv h
      have hNext : s'.nextTokenId = s.nextTokenId + 1 := by rw [hs']
      have hOwn : s'.owners = Function.update s.owners s.nextTokenId s.contractOwner := by
        rw [hs']
      have hProj : s'.projects = Function.update s.projects s.nextTokenId
          ({ status := .Upcoming, proposalURI := uri, reportURI := "" }) := by
        rw [hs']
      rw [applyOp_create_ok_state h]
      constructor
      · intro t ht
        rw [hNext] at ht
        rw [hOwn, Function.update_noteq (by omega)]
        exact hUnminted t (by omega)
      · intro t ht
        rw [hOwn] at ht
        rw [hProj]
        by_cases he : t = s.nextTokenId
        · subst he
          rw [Function.update_same]
          show ("" : String) ≠ "" ↔ ProjectStatus.Upcoming = ProjectStatus.Completed
          decide
        · rw [Function.update_noteq he] at ht
          rw [Function.update_noteq he]
          exact hReport t ht
    | error e =>
      rw [applyOp_create_err h]
      exact ⟨hUnminted, hReport⟩
  | update caller tokenId newStatus reportURI =>
    cases h : updateStatus s caller tokenId newStatus reportURI with
    | ok s' =>
      obtain ⟨-, hex, hvalid, hnotempty, hs'⟩ := updateStatus_ok_inv h
      have hNext : s'.nextTokenId = s.nextTokenId := by rw [hs']
      have hOwn : s'.owners = s.owners := by rw [hs']
      have hProj : s'.projects = Function.update s.projects tokenId
          (if newStatus = .Completed
           then { s.projects tokenId with status := newStatus, reportURI := reportURI }
           else { s.projects tokenId with status := newStatus }) := by
        rw [hs']
      rw [applyOp_update_ok_state h]
      constructor
      · intro t ht
        rw [hNext] at ht
        rw [hOwn]
        exact hUnminted t ht
      · intro t ht
        rw [hOwn] at ht
        rw [hProj]
        by_cases he : t = tokenId
        · subst he
          rw [Function.update_same]
          by_cases hC : newStatus = .Completed
          · rw [if_pos hC]
            show reportURI ≠ "" ↔ newStatus = .Completed
            have hre : reportURI ≠ "" := fun hre => hnotempty ⟨hC, hre⟩
            simp [hre, hC]
          · rw [if_neg hC]
            show (s.projects t).reportURI ≠ "" ↔ newStatus = .Completed
            have hcur : (s.projects t).status ≠ .Completed := by
              intro hcc
              rw [hcc] at hvalid
              revert hvalid
              cases newStatus <;> decide
            have hre : (s.projects t).reportURI = "" := by
              by_contra hne
              exact hcur ((hReport t ht).mp hne)
            simp [hre, hC]
        · rw [Function.update_noteq he]
          exact hReport t ht
    | error e =>
      rw [applyOp_update_err h]
      exact ⟨hUnminted, hReport⟩

lemma storeInv_run (o : Nat) (ops : List Op) : StoreInv (run (initState o) ops) := by
  suffices h : ∀ s, StoreInv s → StoreInv (run s ops) from h _ (storeInv_init o)
  induction ops with
  | nil => exact fun s hs => hs
  | cons op ops ih => exact fun s hs => ih _ (storeInv_applyOp op hs)

/-! ### The claims -/

/-- C1: for an existing record and an administrator caller, the transition
check of `updateStatus` accepts exactly the four pairs
Upcoming→Ongoing, Upcoming→Cancelled, Ongoing→Completed, Ongoing→Cancelled;
with a non-empty report argument `updateStatus` succeeds exactly on those
pairs, and on every other pair (self-transitions and transitions out of
`Cancelled`/`Completed` included) it fails with `InvalidStatusTransition`
and leaves the storage unchanged. -/
theorem c1_updateStatus_transition_table (s : EntewardProject)
    (caller tokenId : Nat) (newStatus : ProjectStatus) (reportURI : String)
    (hc : caller = s.contractOwner) (hex : s.owners tokenId ≠ 0) :
    (_isValidStatusTransition (s.projects tokenId).status newStatus = true ↔
      (((s.projects tokenId).status = .Upcoming ∧ newStatus = .Ongoing) ∨
       ((s.projects tokenId).status = .Upcoming ∧ newStatus = .Cancelled) ∨
       ((s.projects tokenId).status = .Ongoing ∧ newStatus = .Completed) ∨
       ((s.projects tokenId).status = .Ongoing ∧ newStatus = .Cancelled))) ∧
    (reportURI ≠ "" →
      (isOk (updateStatus s caller tokenId newStatus reportURI) = true ↔
        _isValidStatusTransition (s.projects tokenId).status newStatus = true)) ∧
    (_isValidStatusTransition (s.projects tokenId).status newStatus = false →
      updateStatus s caller tokenId newStatus reportURI =
        .error (.InvalidStatusTransition (s.projects tokenId).status newStatus) ∧
      applyOp s (.update caller tokenId newStatus reportURI) = s) := by
  refine ⟨?_, ?_, ?_⟩
  · cases hst : (s.projects tokenId).status <;> cases newStatus <;> decide
  · intro hr
    constructor
    · intro hok
      obtain ⟨s', hs'⟩ := (isOk_iff _).mp hok
      exact (updateStatus_ok_inv hs').2.2.1
    · intro hvalid
      by_cases hC : newStatus = .Completed
      · subst hC
        rw [updateStatus_completed hc hex hvalid hr]
        rfl
      · rw [updateStatus_nonCompleted hc hex hvalid hC]
        rfl
  · intro hbad
    have he : updateStatus s caller tokenId newStatus reportURI =
        .error (.InvalidStatusTransition (s.projects tokenId).status newStatus) :=
      updateStatus_invalid hc hex hbad
    exact ⟨he, applyOp_update_err he⟩

/-- Witness for C1 at a concrete input: on the one-record store the
transition Upcoming→Ongoing is accepted. -/
theorem c1_witness : isOk (updateStatus stateOne 1 0 .Ongoing "x") = true :=
  ((c1_updateStatus_transition_table stateOne 1 0 .Ongoing "x"
      (by decide) (by decide)).2.1 (by decide)).mpr (by decide)

/-- C3: starting from a fresh store, the ids handed out by the successful
`create` calls of any trace are `0, 1, 2, …` in call order (no gaps, no
reuse), the record count equals the number of successful creations, and the
count never decreases under further operations. -/
theorem c3_sequential_ids_and_count (o : Nat) (ops extra : List Op) :
    createdIds (initState o) ops = List.range (succCreates (initState o) ops) ∧
    getTotalProjects (run (initState o) ops) = succCreates (initState o) ops ∧
    getTotalProjects (run (initState o) ops) ≤
      getTotalProjects (run (initState o) (ops ++ extra)) := by
  refine ⟨?_, ?_, ?_⟩
  · rw [createdIds_eq_range', List.range_eq_range']
    rfl
  · rw [getTotalProjects, run_nextTokenId]
    simp [initState]
  · rw [getTotalProjects, getTotalProjects, run_append,
      run_nextTokenId (run (initState o) ops) extra]
    omega

/-- C4: in every state reachable by `create` and `updateStatus` calls, an
existing record's `reportURI` is non-empty exactly when its status is
`Completed`. -/
theorem c4_report_iff_completed (o : Nat) (ops : List Op) (t : Nat)
    (hex : (run (initState o) ops).owners t ≠ 0) :
    (((run (initState o) ops).projects t).reportURI ≠ "" ↔
      ((run (initState o) ops).projects t).status = .Completed) :=
  (storeInv_run o ops).2 t hex

/-- Witness for C4 at a concrete input: after create, Upcoming→Ongoing and
Ongoing→Completed with report "r", record 0 satisfies the equivalence. -/
theorem c4_witness :
    (((run (initState 1)
        [.create 1 "p", .update 1 0 .Ongoing "", .update 1 0 .Completed "r"]).projects
          0).reportURI ≠ "" ↔
      ((run (initState 1)
        [.create 1 "p", .update 1 0 .Ongoing "", .update 1 0 .Completed "r"]).projects
          0).status = .Completed) :=
  c4_report_iff_completed 1
    [.create 1 "p", .update 1 0 .Ongoing "", .update 1 0 .Completed "r"] 0 (by decide)

/-- Counterexample to C5 as stated: on a record whose current status is
`Upcoming` (a store state the claim quantifies over), `updateStatus(0,
Completed, "")` fails with `InvalidStatusTransition`, not with
`ReportURIRequired` — the transition check runs before the report check. -/
theorem c5_counterexample :
    updateStatus stateOne 1 0 .Completed "" =
      .error (.InvalidStatusTransition .Upcoming .Completed) ∧
    updateStatus stateOne 1 0 .Completed "" ≠ .error .ReportURIRequired := by
  refine ⟨rfl, ?_⟩
  intro h
  rw [show updateStatus stateOne 1 0 .Completed "" =
      .error (.InvalidStatusTransition .Upcoming .Completed) from rfl] at h
  exact absurd (Except.error.inj h) (by decide)

/-- C5 (amended): for an existing record and an administrator caller,
`updateStatus(id, Completed, "")` always fails — with `ReportURIRequired`
when the current status is `Ongoing`, and with `InvalidStatusTransition`
from any other current status; and `updateStatus(id, Completed, "ipfs://x")`
on a record whose current status is `Ongoing` succeeds and leaves the
record's `reportURI` equal to `"ipfs://x"`. -/
theorem c5_completed_report_rule (s : EntewardProject) (caller tokenId : Nat)
    (hc : caller = s.contractOwner) (hex : s.owners tokenId ≠ 0) :
    updateStatus s caller tokenId .Completed "" =
      .error (if (s.projects tokenId).status = .Ongoing then .ReportURIRequired
              else .InvalidStatusTransition (s.projects tokenId).status .Completed) ∧
    ((s.projects tokenId).status = .Ongoing →
      ∃ s', updateStatus s caller tokenId .Completed "ipfs://x" = .ok s' ∧
        (s'.projects tokenId).reportURI = "ipfs://x") := by
  constructor
  · by_cases hOn : (s.projects tokenId).status = .Ongoing
    · rw [if_pos hOn]
      apply updateStatus_reportRequired hc hex
      rw [hOn]
      decide
    · rw [if_neg hOn]
      apply updateStatus_invalid hc hex
      cases hst : (s.projects tokenId).status with
      | Upcoming => decide
      | Ongoing => exact absurd hst hOn
      | Cancelled => decide
      | Completed => decide
  · intro hOn
    refine ⟨_, updateStatus_completed hc hex (by rw [hOn]; decide) (by decide), ?_⟩
    show (Function.update s.projects tokenId
      ({ s.projects tokenId with status := .Completed, reportURI := "ipfs://x" }) tokenId).reportURI = "ipfs://x"
    rw [Function.update_same]

/-- Witness for C5 (amended) at a concrete input: on the `Ongoing` record of
`stateOngoing`, completing with an empty report fails with
`ReportURIRequired`, and completing with "ipfs://x" succeeds and stores it. -/
theorem c5_witness :
    updateStatus stateOngoing 1 0 .Completed "" = .error .ReportURIRequired ∧
    ∃ s', updateStatus stateOngoing 1 0 .Completed "ipfs://x" = .ok s' ∧
      (s'.projects 0).reportURI = "ipfs://x" := by
  have h := c5_completed_report_rule stateOngoing 1 0 (by decide) (by decide)
  exact ⟨h.1.trans rfl, h.2 (by decide)⟩

/-- Counterexample to C6 as stated: `create` with the whitespace-only
proposal `" "` succeeds rather than failing with `EmptyProposalURI` (the
source checks only `bytes(proposalURI).length == 0`); and on the reachable
state whose counter is saturated, `create` with the non-empty proposal "x"
fails with an arithmetic panic rather than succeeding. -/
theorem c6_counterexample :
    isOk (safeMint (initState 1) 1 " ") = true ∧
    safeMint (initState 1) 1 " " ≠ .error .EmptyProposalURI ∧
    safeMint stateSaturated 1 "x" = .error .ArithmeticPanic := by
  have h1 : isOk (safeMint (initState 1) 1 " ") = true := by decide
  refine ⟨h1, ?_, rfl⟩
  intro h
  rw [h] at h1
  exact Bool.noConfusion h1

/-- C6 (amended): on any reachable store whose identifier counter is not
saturated, and with the administrator calling, `create(proposalURI)` fails
with `EmptyProposalURI` exactly when `proposalURI` is the empty string
(whitespace-only strings are accepted); on failure the store is unchanged;
and for a non-empty `proposalURI` it succeeds, allocating the next
identifier and inserting a record with status `Upcoming`, the given
`proposalURI`, and an empty `reportURI`. -/
theorem c6_create_empty_check (o : Nat) (ops : List Op) (caller : Nat)
    (proposalURI : String) (ho : o ≠ 0) (hc : caller = o)
    (hcap : (run (initState o) ops).nextTokenId + 1 < UINT256_MOD) :
    (safeMint (run (initState o) ops) caller proposalURI =
        .error .EmptyProposalURI ↔ proposalURI = "") ∧
    (proposalURI = "" →
      applyOp (run (initState o) ops) (.create caller proposalURI) =
        run (initState o) ops) ∧
    (proposalURI ≠ "" →
      ∃ s', safeMint (run (initState o) ops) caller proposalURI =
          .ok (s', (run (initState o) ops).nextTokenId) ∧
        (s'.projects ((run (initState o) ops).nextTokenId)).status = .Upcoming ∧
        (s'.projects ((run (initState o) ops).nextTokenId)).proposalURI = proposalURI ∧
        (s'.projects ((run (initState o) ops).nextTokenId)).reportURI = "" ∧
        s'.nextTokenId = (run (initState o) ops).nextTokenId + 1) := by
  have hco : (run (initState o) ops).contractOwner = o := by
    rw [run_contractOwner]
    rfl
  have hc' : caller = (run (initState o) ops).contractOwner := by rw [hco, hc]
  have hfresh : (run (initState o) ops).owners ((run (initState o) ops).nextTokenId) = 0 :=
    (storeInv_run o ops).1 _ le_rfl
  have hsucc : ∀ uri : String, uri ≠ "" →
      safeMint (run (initState o) ops) caller uri =
        .ok ({ run (initState o) ops with
                nextTokenId := (run (initState o) ops).nextTokenId + 1,
                owners := Function.update (run (initState o) ops).owners
                  ((run (initState o) ops).nextTokenId) ((run (initState o) ops).contractOwner),
                projects := Function.update (run (initState o) ops).projects
                  ((run (initState o) ops).nextTokenId)
                  ({ status := .Upcoming, proposalURI := uri, reportURI := "" }) },
             (run (initState o) ops).nextTokenId) :=
    fun uri hne => safeMint_success hc' hne hcap (by rw [hco]; exact ho) hfresh
  refine ⟨?_, ?_, ?_⟩
  · constructor
    · intro h
      by_contra hne
      rw [hsucc proposalURI hne] at h
      exact Except.noConfusion h
    · intro h
      subst h
      exact safeMint_empty hc'
  · intro h
    subst h
    exact applyOp_create_err (safeMint_empty hc')
  · intro hne
    refine ⟨_, hsucc proposalURI hne, ?_, ?_, ?_, rfl⟩ <;>
      rw [show ({ run (initState o) ops with
            nextTokenId := (run (initState o) ops).nextTokenId + 1,
            owners := Function.update (run (initState o) ops).owners
              ((run (initState o) ops).nextTokenId) ((run (initState o) ops).contractOwner),
            projects := Function.update (run (initState o) ops).projects
              ((run (initState o) ops).nextTokenId)
              ({ status := .Upcoming, proposalURI := proposalURI, reportURI := "" }) } :
          EntewardProject).projects ((run (initState o) ops).nextTokenId) =
          ({ status := .Upcoming, proposalURI := proposalURI, reportURI := "" } : Project)
        from Function.update_same _ _ _]

/-- Witness for C6 (amended) at a concrete input: on the fresh store, the
administrator's `create("ipfs://p")` succeeds with id 0 and inserts an
`Upcoming` record with empty report. -/
theorem c6_witness :
    ∃ s', safeMint (run (initState 1) []) 1 "ipfs://p" = .ok (s', 0) ∧
      (s'.projects 0).status = .Upcoming ∧
      (s'.projects 0).proposalURI = "ipfs://p" ∧
      (s'.projects 0).reportURI = "" ∧
      s'.nextTokenId = 1 :=
  (c6_create_empty_check 1 [] 1 "ipfs://p" (by decide) rfl (by decide)).2.2 (by decide)

/-- C8: any custody reassignment of an existing record is rejected: the
`_update` override fails with `TransfersNotAllowed` for every existing token
and nonzero receiver (hence every transfer entry point fails, for every
caller), `approve` and `setApprovalForAll` fail unconditionally with
`TransfersNotAllowed`, while minting a fresh token to the administrator
still succeeds. -/
theorem c8_transfer_lock (s : EntewardProject)
    (toAddr tokenId auth operator : Nat) (approved : Bool) (uri : String)
    (hex : s.owners tokenId ≠ 0) (hto : toAddr ≠ 0) :
    _update s toAddr tokenId auth = .error .TransfersNotAllowed ∧
    approve toAddr tokenId = .error .TransfersNotAllowed ∧
    setApprovalForAll operator approved = .error .TransfersNotAllowed ∧
    (s.contractOwner ≠ 0 → s.owners s.nextTokenId = 0 →
      s.nextTokenId + 1 < UINT256_MOD → uri ≠ "" →
      isOk (safeMint s s.contractOwner uri) = true) := by
  refine ⟨?_, rfl, rfl, ?_⟩
  · unfold _update
    rw [if_pos ⟨hex, hto⟩]
  · intro ho hfresh hcap hne
    rw [safeMint_success rfl hne hcap ho hfresh]
    rfl

/-- Witness for C8 at a concrete input: transferring the existing record 0 of
the one-record store to address 2 is rejected. -/
theorem c8_witness : _update stateOne 2 0 0 = .error .TransfersNotAllowed :=
  (c8_transfer_lock stateOne 2 0 0 3 true "x" (by decide) (by decide)).1

/-- C9: a successful `updateStatus` to `Ongoing` or `Cancelled` changes only
the record's status — its `proposalURI` and `reportURI` are untouched even
when a non-empty report argument is passed — and every other record, the
counter, the owners mapping and the contract owner are unchanged. -/
theorem c9_update_frame (s s' : EntewardProject) (caller tokenId : Nat)
    (newStatus : ProjectStatus) (reportURI : String)
    (_hr : reportURI ≠ "") (hns : newStatus = .Ongoing ∨ newStatus = .Cancelled)
    (h : updateStatus s caller tokenId newStatus reportURI = .ok s') :
    s'.projects tokenId = { s.projects tokenId with status := newStatus } ∧
    (∀ u, u ≠ tokenId → s'.projects u = s.projects u) ∧
    s'.nextTokenId = s.nextTokenId ∧
    s'.owners = s.owners ∧
    s'.contractOwner = s.contractOwner := by
  obtain ⟨-, -, -, -, hs'⟩ := updateStatus_ok_inv h
  have hnC : newStatus ≠ .Completed := by
    rcases hns with rfl | rfl <;> decide
  rw [if_neg hnC] at hs'
  have hP : s'.projects =
      Function.update s.projects tokenId ({ s.projects tokenId with status := newStatus }) := by
    rw [hs']
  refine ⟨?_, ?_, by rw [hs'], by rw [hs'], by rw [hs']⟩
  · rw [hP, Function.update_same]
  · intro u hu
    rw [hP, Function.update_noteq hu]

/-- Witness for C9 at a concrete input: moving record 0 of the one-record
store to `Ongoing` with report argument "r" leaves only the status changed. -/
theorem c9_witness :
    (applyOp stateOne (.update 1 0 .Ongoing "r")).projects 0 =
      { stateOne.projects 0 with status := .Ongoing } :=
  (c9_update_frame stateOne (applyOp stateOne (.update 1 0 .Ongoing "r")) 1 0 .Ongoing "r"
    (by decide) (Or.inl rfl) rfl).1

/-- Counterexample to C2 as stated: on a store state with a valid uint256
counter (the state reached after `2 ^ 256 - 1` creations), `total > 0` and
`start = 1 * (2 ^ 256 - 2) < total` hold, yet `list(2 ^ 256 - 2, 1)` fails
with an arithmetic panic — the checked addition `startIndex +
projectsPerPage` overflows uint256 — instead of succeeding. -/
theorem c2_counterexample :
    0 < stateSaturated.nextTokenId ∧
    1 * (UINT256_MOD - 2) < stateSaturated.nextTokenId ∧
    getProjects stateSaturated (UINT256_MOD - 2) 1 = .error .ArithmeticPanic := by
  exact ⟨by decide, by decide, rfl⟩

/-- C2 (amended): for every store state with a valid uint256 counter,
`total = count() > 0`, `start = pageNumber * pageSize < total`, and
`start + pageSize < 2 ^ 256` (no overflow in the end-index addition),
`list(pageSize, pageNumber)` succeeds and returns four index-aligned arrays
of length `min(start + pageSize, total) - start` whose entry `i` holds the
record with identifier `total - 1 - start - i` — newest first, strictly
descending, no gaps or duplicates across consecutive pages of a stable
store. -/
theorem c2_pagination_contents (s : EntewardProject) (projectsPerPage page : Nat)
    (hwf : s.nextTokenId ≤ UINT256_MOD) (h0 : 0 < s.nextTokenId)
    (hs : page * projectsPerPage < s.nextTokenId)
    (hsum : page * projectsPerPage + projectsPerPage < UINT256_MOD) :
    ∃ tokenIds statuses proposalURIs reportURIs,
      getProjects s projectsPerPage page =
        .ok (tokenIds, statuses, proposalURIs, reportURIs) ∧
      tokenIds.length =
        min (page * projectsPerPage + projectsPerPage) s.nextTokenId -
          page * projectsPerPage ∧
      statuses.length = tokenIds.length ∧
      proposalURIs.length = tokenIds.length ∧
      reportURIs.length = tokenIds.length ∧
      (∀ i, i < tokenIds.length →
        tokenIds[i]? = some (s.nextTokenId - 1 - page * projectsPerPage - i) ∧
        statuses[i]? =
          some ((s.projects (s.nextTokenId - 1 - page * projectsPerPage - i)).status) ∧
        proposalURIs[i]? =
          some ((s.projects (s.nextTokenId - 1 - page * projectsPerPage - i)).proposalURI) ∧
        reportURIs[i]? =
          some ((s.projects (s.nextTokenId - 1 - page * projectsPerPage - i)).reportURI)) := by
  have h1 : ¬ s.nextTokenId = 0 := by omega
  have h2 : ¬ UINT256_MOD ≤ page * projectsPerPage := by omega
  have h3 : ¬ s.nextTokenId ≤ page * projectsPerPage := by omega
  have h4 : ¬ UINT256_MOD ≤ page * projectsPerPage + projectsPerPage := by omega
  have heq : getProjects s projectsPerPage page =
      .ok ((List.range
              (min (page * projectsPerPage + projectsPerPage) s.nextTokenId -
                page * projectsPerPage)).map
             (fun i => s.nextTokenId - 1 - page * projectsPerPage - i),
           ((List.range
              (min (page * projectsPerPage + projectsPerPage) s.nextTokenId -
                page * projectsPerPage)).map
             (fun i => s.nextTokenId - 1 - page * projectsPerPage - i)).map
             (fun t => (s.projects t).status),
           ((List.range
              (min (page * projectsPerPage + projectsPerPage) s.nextTokenId -
                page * projectsPerPage)).map
             (fun i => s.nextTokenId - 1 - page * projectsPerPage - i)).map
             (fun t => (s.projects t).proposalURI),
           ((List.range
              (min (page * projectsPerPage + projectsPerPage) s.nextTokenId -
                page * projectsPerPage)).map
             (fun i => s.nextTokenId - 1 - page * projectsPerPage - i)).map
             (fun t => (s.projects t).reportURI)) := by
    unfold getProjects
    rw [if_neg h1, if_neg h2, if_neg h3, if_neg h4]
  refine ⟨_, _, _, _, heq, ?_, ?_, ?_, ?_, ?_⟩
  · rw [List.length_map, List.length_range]
  · rw [List.length_map]
  · rw [List.length_map]
  · rw [List.length_map]
  · intro i hi
    rw [List.length_map, List.length_range] at hi
    refine ⟨?_, ?_, ?_, ?_⟩
    · rw [List.getElem?_map, List.getElem?_range hi]
      rfl
    · rw [List.getElem?_map, List.getElem?_map, List.getElem?_range hi]
      rfl
    · rw [List.getElem?_map, List.getElem?_map, List.getElem?_range hi]
      rfl
    · rw [List.getElem?_map, List.getElem?_map, List.getElem?_range hi]
      rfl

/-- Witness for C2 (amended) at a concrete input: page 1 of size 3 on the
seven-record store holds the records with ids 3, 2, 1. -/
theorem c2_witness :
    ∃ tokenIds statuses proposalURIs reportURIs,
      getProjects stateSeven 3 1 = .ok (tokenIds, statuses, proposalURIs, reportURIs) ∧
      tokenIds.length = min (1 * 3 + 3) 7 - 1 * 3 ∧
      statuses.length = tokenIds.length ∧
      proposalURIs.length = tokenIds.length ∧
      reportURIs.length = tokenIds.length ∧
      (∀ i, i < tokenIds.length →
        tokenIds[i]? = some (7 - 1 - 1 * 3 - i) ∧
        statuses[i]? = some ((stateSeven.projects (7 - 1 - 1 * 3 - i)).status) ∧
        proposalURIs[i]? = some ((stateSeven.projects (7 - 1 - 1 * 3 - i)).proposalURI) ∧
        reportURIs[i]? = some ((stateSeven.projects (7 - 1 - 1 * 3 - i)).reportURI)) :=
  c2_pagination_contents stateSeven 3 1 (by decide) (by decide) (by decide) (by decide)

/-- The full seven-record pagination scenario of the specification, checked
by evaluation: pages 0, 1, 2 of size 3 hold ids [6,5,4], [3,2,1], [0], and
page 3 is out of bounds. -/
lemma scenario_seven_pages :
    getProjects stateSeven 3 0 =
      .ok ([6, 5, 4], [.Upcoming, .Upcoming, .Upcoming], ["p6", "p5", "p4"], ["", "", ""]) ∧
    getProjects stateSeven 3 1 =
      .ok ([3, 2, 1], [.Upcoming, .Upcoming, .Upcoming], ["p3", "p2", "p1"], ["", "", ""]) ∧
    getProjects stateSeven 3 2 = .ok ([0], [.Upcoming], ["p0"], [""]) ∧
    getProjects stateSeven 3 3 = .error (.PageOutOfBounds 3 2) := by
  exact ⟨by decide, by decide, by decide, by decide⟩

/-- Counterexample to C7 as stated: on the reachable one-record store,
`pageNumber * pageSize = 2 ^ 128 * 2 ^ 128 ≥ count() = 1`, so the claim
demands a `PageOutOfBounds` failure, but the checked multiplication
overflows uint256 and the call fails with an arithmetic panic instead. -/
theorem c7_counterexample :
    stateOne.nextTokenId ≤ 2 ^ 128 * 2 ^ 128 ∧
    getProjects stateOne (2 ^ 128) (2 ^ 128) = .error .ArithmeticPanic ∧
    getProjects stateOne (2 ^ 128) (2 ^ 128) ≠ .error (.PageOutOfBounds (2 ^ 128) 0) := by
  refine ⟨by decide, rfl, ?_⟩
  intro h
  rw [show getProjects stateOne (2 ^ 128) (2 ^ 128) = .error .ArithmeticPanic from rfl] at h
  exact absurd (Except.error.inj h) (by decide)

/-- C7 (amended): `list` fails with `EmptyStore` exactly when the store is
empty; on a non-empty store whose `pageNumber * pageSize` product fits in
uint256, it fails with `PageOutOfBounds` exactly when `pageNumber *
pageSize ≥ count()`; and when that product overflows uint256 the call fails
with an arithmetic panic instead. (`list` is a view: it never mutates the
store, which the embedding reflects by returning no state.) -/
theorem c7_list_error_conditions (s : EntewardProject) (projectsPerPage page : Nat) :
    (getProjects s projectsPerPage page = .error .NoProjectsExist ↔ s.nextTokenId = 0) ∧
    (0 < s.nextTokenId → page * projectsPerPage < UINT256_MOD →
      ((∃ maxPages, getProjects s projectsPerPage page =
          .error (.PageOutOfBounds page maxPages)) ↔
        s.nextTokenId ≤ page * projectsPerPage)) ∧
    (0 < s.nextTokenId → UINT256_MOD ≤ page * projectsPerPage →
      getProjects s projectsPerPage page = .error .ArithmeticPanic) := by
  by_cases h1 : s.nextTokenId = 0
  · exact ⟨by simp [getProjects, h1],
      fun h0 => absurd h0 (by omega), fun h0 => absurd h0 (by omega)⟩
  · by_cases h2 : UINT256_MOD ≤ page * projectsPerPage
    · have hE : getProjects s projectsPerPage page = .error .ArithmeticPanic := by
        unfold getProjects
        rw [if_neg h1, if_pos h2]
      exact ⟨by simp [hE, h1], fun _ hlt => absurd h2 (by omega), fun _ _ => hE⟩
    · by_cases h3 : s.nextTokenId ≤ page * projectsPerPage
      · have hpp : ¬ projectsPerPage = 0 := by
          intro hz
          rw [hz, Nat.mul_zero] at h3
          omega
        have hE : getProjects s projectsPerPage page =
            .error (.PageOutOfBounds page ((s.nextTokenId - 1) / projectsPerPage)) := by
          unfold getProjects
          rw [if_neg h1, if_neg h2, if_pos h3, if_neg hpp]
        refine ⟨by simp [hE, h1], ?_, fun _ hge => absurd hge h2⟩
        intro _ _
        exact ⟨fun _ => h3, fun _ => ⟨_, hE⟩⟩
      · by_cases h4 : UINT256_MOD ≤ page * projectsPerPage + projectsPerPage
        · have hE : getProjects s projectsPerPage page = .error .ArithmeticPanic := by
            unfold getProjects
            rw [if_neg h1, if_neg h2, if_neg h3, if_pos h4]
          refine ⟨by simp [hE, h1], ?_, fun _ hge => absurd hge h2⟩
          intro _ _
          simp [hE, h3]
        · have hE : ∃ v, getProjects s projectsPerPage page = .ok v := by
            unfold getProjects
            rw [if_neg h1, if_neg h2, if_neg h3, if_neg h4]
            exact ⟨_, rfl⟩
          obtain ⟨v, hE⟩ := hE
          refine ⟨by simp [hE, h1], ?_, fun _ hge => absurd hge h2⟩
          intro _ _
          simp [hE, h3]

/-- Witness for C7 (amended) at concrete inputs: `list(3, 0)` on the fresh
store fails with `EmptyStore`, and on the one-record store `list(3, 1)`
(with `1 * 3 ≥ 1 = count()`) fails with `PageOutOfBounds`. -/
theorem c7_witness :
    (getProjects (initState 1) 3 0 = .error .NoProjectsExist ↔
      (initState 1).nextTokenId = 0) ∧
    ((∃ maxPages, getProjects stateOne 3 1 = .error (.PageOutOfBounds 1 maxPages)) ↔
      stateOne.nextTokenId ≤ 1 * 3) :=
  ⟨(c7_list_error_conditions (initState 1) 3 0).1,
   (c7_list_error_conditions stateOne 3 1).2.1 (by decide) (by decide)⟩

/-- C10: `list(0, p)` on a non-empty store succeeds with four empty arrays —
a zero page size makes `startIndex = 0 < total`, so the out-of-bounds branch
that divides by `projectsPerPage` is never reached with a zero divisor, and
`list` never raises the division-by-zero panic. -/
theorem c10_no_division_by_zero (s : EntewardProject) (projectsPerPage page : Nat) :
    (s.nextTokenId ≠ 0 → getProjects s 0 page = .ok ([], [], [], [])) ∧
    getProjects s projectsPerPage page ≠ .error .DivisionByZeroPanic := by
  constructor
  · intro h
    unfold getProjects
    rw [if_neg h,
      if_neg (by rw [Nat.mul_zero]; exact (by decide : ¬ UINT256_MOD ≤ 0)),
      if_neg (by rw [Nat.mul_zero]; omega),
      if_neg (by rw [Nat.mul_zero]; exact (by decide : ¬ UINT256_MOD ≤ 0 + 0))]
    simp [Nat.zero_min]
  · intro h
    unfold getProjects at h
    split_ifs at h with h1 h2 h3 h4 h5 <;> try simp at h
    rw [h4, Nat.mul_zero] at h3
    omega

/-- Witness for C10 at concrete inputs: `list(0, 5)` on the one-record store
returns four empty arrays, and `list(3, 7)` on it does not raise the
division panic. -/
theorem c10_witness :
    getProjects stateOne 0 5 = .ok ([], [], [], []) ∧
    getProjects stateOne 3 7 ≠ .error .DivisionByZeroPanic :=
  ⟨(c10_no_division_by_zero stateOne 0 5).1 (by decide),
   (c10_no_division_by_zero stateOne 3 7).2⟩
